import Mathlib

/-!
# BEE2BEE / ConnectIT — verification of the spec against the code

The repository's code under `src/` is the desktop frontend
(`desktop-app/src/App.tsx`); the P2P core (Registry, Supervisor Monitor,
Router) is documented but its Python source is not part of `src/`, so those
components are modelled from the spec where a claim needs them.

Part 1: shallow embedding of the frontend logic in `App.tsx`.
-/

/-- A chat message as kept in the `messages` state of `ChatView`
(`App.tsx`, interface `ChatMessage`): a role (`"user"` or `"ai"`),
the text, and a timestamp. -/
structure ChatMessage where
  role : String
  text : String
  ts : Nat
deriving Repr, DecidableEq

/-- The parsed JSON body of a response from `POST /chat` as `handleSend`
reads it: `data.status`, `data.result.text` (read when status is ok) and
`data.message` (read otherwise). -/
structure ChatResponse where
  status : String
  resultText : String
  message : String
deriving Repr, DecidableEq

/-- Outcome of the `fetch` in `handleSend`: either a parsed JSON body, or a
failed fetch / unparsable body (the `catch` branch). -/
inductive FetchOutcome where
  | ok (resp : ChatResponse)
  | failed
deriving Repr, DecidableEq

/-- The single AI-role message `handleSend` appends after the request
(`App.tsx` lines 289–303): on `status === 'ok'` the text is
`data.result.text`; on any other status it is `"Error: " ++ data.message`;
on a fetch failure it is `"Connection Error"`. -/
def handleSendAiMessage (o : FetchOutcome) (now : Nat) : ChatMessage :=
  match o with
  | .ok data =>
      if data.status = "ok" then ⟨"ai", data.resultText, now⟩
      else ⟨"ai", "Error: " ++ data.message, now⟩
  | .failed => ⟨"ai", "Connection Error", now⟩

/-- The state `handleSend` reads: the message list, the input box content,
and the selected provider id (empty string when none is selected). -/
structure ChatState where
  messages : List ChatMessage
  input : String
  providerId : String
deriving Repr, DecidableEq

/-- JavaScript `String.prototype.trim()`: strip leading and trailing
whitespace characters. -/
def jsTrim (s : String) : String :=
  ⟨((s.data.dropWhile Char.isWhitespace).reverse.dropWhile Char.isWhitespace).reverse⟩

/-- `handleSend` (`App.tsx` lines 270–307) as a pure state step: the guard
`if (!input.trim() || !providerId) return;` leaves the message list
unchanged and issues no request (second component `false`); otherwise one
user message with the untrimmed input is appended, the request is issued
(second component `true`), and one AI message is appended after it. -/
def handleSend (st : ChatState) (o : FetchOutcome) (t1 t2 : Nat) :
    List ChatMessage × Bool :=
  if jsTrim st.input = "" ∨ st.providerId = "" then (st.messages, false)
  else (st.messages ++ [⟨"user", st.input, t1⟩, handleSendAiMessage o t2], true)

/-- The parsed JSON body of a response from `GET /connect` as
`handleConnect` reads it: `data.status` and `data.message` (which may be
absent or empty, hence `Option`). -/
structure ConnectResponse where
  status : String
  message : Option String
deriving Repr, DecidableEq

/-- JavaScript `a || b` on a string `a` (an absent or empty string is
falsy), used for `data.message || 'Failed'`. -/
def jsStrOr (a : Option String) (b : String) : String :=
  match a with
  | some s => if s = "" then b else s
  | none => b

/-- The status text `handleConnect` displays (`App.tsx` lines 104–119):
`"Connected!"` exactly on `data.status === 'connected'`, otherwise
`"Error: " ++ (data.message || 'Failed')`, and `"Network Error"` when the
fetch fails or the body cannot be parsed (`none`). -/
def handleConnectStatus (o : Option ConnectResponse) : String :=
  match o with
  | some data =>
      if data.status = "connected" then "Connected!"
      else "Error: " ++ jsStrOr data.message "Failed"
  | none => "Network Error"

/-- A peer as the frontend receives it from `GET /peers` (`App.tsx`,
interface `Peer`): exactly the fields `peer_id`, `addr`, `latency_ms`,
`health_status`, `last_audit`.  `latency_ms` is `Option Nat` because the
rendering code guards on its truthiness (`peer.latency_ms ? … : '-'` and
`p.latency_ms || 0`): `none` models an absent value, `some 0` a zero. -/
structure Peer where
  peer_id : String
  addr : String
  latency_ms : Option Nat
  health_status : String
  last_audit : Nat
deriving Repr, DecidableEq

/-- The user-visible pieces of one peer row in `AdminView`
(`App.tsx` lines 230–246). -/
structure RenderedPeer where
  idText : String
  badgeGreen : Bool
  badgeText : String
  addrText : String
  lastSeenSecs : Nat
  latencyText : String
deriving Repr, DecidableEq

/-- JavaScript `a || b` on a number (`0` and absent are falsy), used for
`p.latency_ms || 0` in the average-latency reduce. -/
def jsNumOr (a : Option Nat) (b : Nat) : Nat :=
  match a with
  | some v => if v = 0 then b else v
  | none => b

/-- `Math.round (d / 1000)` for a nonnegative millisecond difference `d`. -/
def roundDiv1000 (d : Nat) : Nat := (d + 500) / 1000

/-- One peer row of `AdminView` (`App.tsx` lines 230–246):
`peer.peer_id.slice(0, 12) + "..."`, the badge is green exactly when
`health_status === 'online'` and shows `health_status`, the address line
shows `addr`, "last seen" shows `Math.round((Date.now() - last_audit)/1000)`
seconds, and the latency cell shows `latency_ms.toFixed(0)` when truthy and
`'-'` otherwise. -/
def renderPeer (now : Nat) (p : Peer) : RenderedPeer :=
  { idText := p.peer_id.take 12 ++ "..."
    badgeGreen := p.health_status = "online"
    badgeText := p.health_status
    addrText := p.addr
    lastSeenSecs := roundDiv1000 (now - p.last_audit)
    latencyText :=
      match p.latency_ms with
      | some v => if v = 0 then "-" else toString v
      | none => "-" }

/-- The reduce in `AdminView`'s "Avg Latency" card (`App.tsx` line 207):
`peers.reduce((acc, p) => acc + (p.latency_ms || 0), 0)`. -/
def sumLatency (peers : List Peer) : Nat :=
  peers.foldl (fun acc p => acc + jsNumOr p.latency_ms 0) 0

/-- The divisor `peers.length || 1` of the "Avg Latency" card. -/
def avgLatencyDivisor (peers : List Peer) : Nat :=
  if peers.length = 0 then 1 else peers.length

/-- The "Avg Latency" statistic (`App.tsx` line 207):
`Math.round(peers.reduce(...) / (peers.length || 1))`. -/
def avgLatency (peers : List Peer) : ℤ :=
  round ((sumLatency peers : ℚ) / (avgLatencyDivisor peers : ℚ))

/-!
Part 2: the P2P core.  The Python sources (`p2p_runtime.py`, `api.py`,
`services.py`) referenced by the repository's README are not part of
`src/`, so the Registry, Supervisor Monitor and Router below are modelled
from the spec.
-/

/-- Modelled from the spec: `health_status` is one of `online`, `degraded`,
`offline` (spec §3, data model; the Python core that assigns it is not in
`src/`). -/
inductive Health where
  | online
  | degraded
  | offline
deriving Repr, DecidableEq

/-- Modelled from the spec: the Supervisor Monitor's per-peer state — a
consecutive-failure counter and the current `health_status` (spec §4.4;
the Python `_monitoring_loop` is not in `src/`). -/
structure MonitorState where
  failures : Nat
  health : Health
deriving Repr, DecidableEq

/-- Modelled from the spec: one probe outcome applied to a peer's monitor
state (spec §4.4).  On success: reset the failure counter and restore
`online` immediately.  On timeout or connection failure: increment the
counter; a single failure gives `degraded`, reaching 3 consecutive
failures gives `offline`. -/
def probeStep (s : MonitorState) (success : Bool) : MonitorState :=
  if success then ⟨0, .online⟩
  else
    let f := s.failures + 1
    ⟨f, if 3 ≤ f then .offline else .degraded⟩

/-- Modelled from the spec: a sequence of probe outcomes folded through
`probeStep` (spec §4.4). -/
def runProbes (s : MonitorState) (results : List Bool) : MonitorState :=
  results.foldl probeStep s

/-- Modelled from the spec: a Registry `PeerRecord` (spec §3) with the
fields the Registry claims need; `ts` is the record's own last-writer
timestamp used for per-field last-writer-wins merging (spec §4.1; the
Python Registry is not in `src/`). -/
structure PeerRec where
  peer_id : String
  address : String
  capabilities : List String
  health : Health
  ts : Nat
  last_audit : Nat
  last_seen_gossip : Nat
deriving Repr, DecidableEq

/-- Modelled from the spec: `Registry.upsert` merging a delta into an
existing record (spec §4.1): last-writer-wins on the delta's own timestamp
for `address`/`capabilities`/`health`, and `last_audit`/`last_seen_gossip`
never regress backward in time. -/
def upsert (r d : PeerRec) : PeerRec :=
  { peer_id := r.peer_id
    address := if r.ts < d.ts then d.address else r.address
    capabilities := if r.ts < d.ts then d.capabilities else r.capabilities
    health := if r.ts < d.ts then d.health else r.health
    ts := max r.ts d.ts
    last_audit := max r.last_audit d.last_audit
    last_seen_gossip := max r.last_seen_gossip d.last_seen_gossip }

/-- Modelled from the spec: `Registry.evict_stale(now, threshold)` keeps
exactly the records whose `last_seen_gossip` is not older than the
threshold; the result is what `list()` returns afterwards (spec §4.1, §3
invariants). -/
def evictStale (rs : List PeerRec) (now threshold : Nat) : List PeerRec :=
  rs.filter (fun r => decide (now - r.last_seen_gossip ≤ threshold))

/-- Modelled from the spec: a Router candidate — a provider record with an
advertised price-per-token, last measured latency, health and offered
models (spec §4.5; the Python Router is not in `src/`). -/
structure Candidate where
  peer_id : String
  price : ℚ
  latency_ms : ℚ
  health : Health
  models : List String
deriving Repr, DecidableEq

/-- Modelled from the spec: the Router's candidate filter — Registry
entries whose capabilities include the requested model and whose
`health_status != offline` (spec §4.5). -/
def routerCandidates (registry : List Candidate) (model : String) : List Candidate :=
  registry.filter (fun c => decide (model ∈ c.models ∧ c.health ≠ Health.offline))

/-- Modelled from the spec: the Router's reference scoring
`score = price * latency_weight + latency_ms`, with `degraded` peers
penalized by a fixed multiplier rather than excluded (spec §4.5). -/
def score (latency_weight penalty : ℚ) (c : Candidate) : ℚ :=
  let base := c.price * latency_weight + c.latency_ms
  if c.health = .degraded then base * penalty else base

/-- Modelled from the spec: candidates ordered best (lowest score) first
(spec §4.5 "dispatch to the lowest-scoring candidate … retry against the
next-best candidate"). -/
def sortByScore (latency_weight penalty : ℚ) (cs : List Candidate) : List Candidate :=
  cs.insertionSort (fun a b => score latency_weight penalty a ≤ score latency_weight penalty b)

/-- Modelled from the spec: the candidate the Router dispatches to — the
lowest-scoring candidate, if any (spec §4.5). -/
def selectBest (latency_weight penalty : ℚ) (cs : List Candidate) : Option Candidate :=
  (sortByScore latency_weight penalty cs).head?

/-- Modelled from the spec: result of one routing request (spec §4.5, §7):
success with the provider's text, the distinct `NoCandidateAvailable`
error for an empty filtered set, or the terminal failure after the retry
cap. -/
inductive RouteResult where
  | ok (text : String) (provider : String)
  | noCandidate
  | terminalFailure
deriving Repr, DecidableEq

/-- Modelled from the spec: the Router's fixed attempt cap (reference: 3)
(spec §4.5). -/
def attemptCap : Nat := 3

/-- Modelled from the spec: try candidates best-first; `f c = some text`
is a successful delivery by `c`, `f c = none` a failed attempt
(`ConnectionClosed`, timeout or provider execution error).  Returns the
result and the number of attempts used; stops at the attempt cap
(spec §4.5). -/
def attemptLoop (f : Candidate → Option String) :
    List Candidate → Nat → RouteResult × Nat
  | _, 0 => (.terminalFailure, 0)
  | [], _ + 1 => (.terminalFailure, 0)
  | c :: rest, k + 1 =>
    match f c with
    | some text => (.ok text c.peer_id, 1)
    | none =>
      let r := attemptLoop f rest k
      (r.1, r.2 + 1)

/-- Modelled from the spec: one routing request (spec §4.5): filter,
report `NoCandidateAvailable` immediately on an empty filtered set, else
attempt candidates in score order up to the attempt cap. -/
def route (latency_weight penalty : ℚ) (f : Candidate → Option String)
    (registry : List Candidate) (model : String) : RouteResult × Nat :=
  let cs := routerCandidates registry model
  if cs.isEmpty then (.noCandidate, 0)
  else attemptLoop f (sortByScore latency_weight penalty cs) attemptCap

theorem string_append_data (a b : String) : (a ++ b).data = a.data ++ b.data := rfl

theorem handleSendAiMessage_role (o : FetchOutcome) (now : Nat) :
    (handleSendAiMessage o now).role = "ai" := by
  cases o with
  | ok d => by_cases h : d.status = "ok" <;> simp [handleSendAiMessage, h]
  | failed => rfl

theorem error_append_ne_connected (m : String) :
    ("Error: " ++ m) ≠ "Connected!" := by
  intro h
  have h2 : ("Error: " ++ m).data = "Connected!".data := congrArg String.data h
  rw [string_append_data] at h2
  have he : "Error: ".data = ['E', 'r', 'r', 'o', 'r', ':', ' '] := by decide
  have hc : "Connected!".data = ['C', 'o', 'n', 'n', 'e', 'c', 't', 'e', 'd', '!'] := by
    decide
  rw [he, hc] at h2
  simp at h2

/-- C1: every response to the capability-request call resolves to a
structured outcome appended as a single AI-role message: on parsed status
`"ok"` exactly `result.text` is appended; on any other status an error
message containing the response's `message` field is appended; a failed
fetch or unparsable response yields a `"Connection Error"` message, never
a crash (the handler is a total function). -/
theorem chat_response_structured (o : FetchOutcome) (now : Nat) :
    (handleSendAiMessage o now).role = "ai" ∧
    (∀ d : ChatResponse, o = .ok d → d.status = "ok" →
      (handleSendAiMessage o now).text = d.resultText) ∧
    (∀ d : ChatResponse, o = .ok d → d.status ≠ "ok" →
      (handleSendAiMessage o now).text = "Error: " ++ d.message) ∧
    (o = .failed → (handleSendAiMessage o now).text = "Connection Error") := by
  refine ⟨handleSendAiMessage_role o now, ?_, ?_, ?_⟩
  · rintro d rfl h
    simp [handleSendAiMessage, h]
  · rintro d rfl h
    simp [handleSendAiMessage, h]
  · rintro rfl
    rfl

theorem chat_response_structured_witness :
    (handleSendAiMessage (.ok ⟨"ok", "hello", ""⟩) 5).text = "hello" ∧
    (handleSendAiMessage (.ok ⟨"error", "", "boom"⟩) 5).text = "Error: " ++ "boom" ∧
    (handleSendAiMessage .failed 5).text = "Connection Error" :=
  ⟨(chat_response_structured (.ok ⟨"ok", "hello", ""⟩) 5).2.1 ⟨"ok", "hello", ""⟩ rfl rfl,
   (chat_response_structured (.ok ⟨"error", "", "boom"⟩) 5).2.2.1 ⟨"error", "", "boom"⟩ rfl
     (by decide),
   (chat_response_structured .failed 5).2.2.2 rfl⟩

/-- C6: `handleConnect` reports success exactly when the parsed response's
status equals `"connected"`; in every other case it reports an error:
with the response's `message` (or the generic `'Failed'` text) when a
response was parsed, and a generic `"Network Error"` on network failure. -/
theorem connect_status_structured (o : Option ConnectResponse) :
    (handleConnectStatus o = "Connected!" ↔
      ∃ r : ConnectResponse, o = some r ∧ r.status = "connected") ∧
    (∀ r : ConnectResponse, o = some r → r.status ≠ "connected" →
      handleConnectStatus o = "Error: " ++ jsStrOr r.message "Failed") ∧
    (o = none → handleConnectStatus o = "Network Error") := by
  refine ⟨?_, ?_, ?_⟩
  · constructor
    · intro h
      cases o with
      | none => exact absurd h (by decide)
      | some r =>
        refine ⟨r, rfl, ?_⟩
        by_cases hs : r.status = "connected"
        · exact hs
        · rw [handleConnectStatus] at h
          simp only [hs, if_false] at h
          exact absurd h (error_append_ne_connected _)
    · rintro ⟨r, rfl, hs⟩
      simp [handleConnectStatus, hs]
  · rintro r rfl hs
    simp [handleConnectStatus, hs]
  · rintro rfl
    rfl

theorem connect_status_structured_witness :
    (handleConnectStatus (some ⟨"connected", none⟩) = "Connected!") ∧
    (handleConnectStatus (some ⟨"error", some "refused"⟩) =
      "Error: " ++ jsStrOr (some "refused") "Failed") ∧
    (handleConnectStatus (some ⟨"error", none⟩) = "Error: " ++ jsStrOr none "Failed") ∧
    (handleConnectStatus none = "Network Error") :=
  ⟨(connect_status_structured (some ⟨"connected", none⟩)).1.2 ⟨⟨"connected", none⟩, rfl, rfl⟩,
   (connect_status_structured (some ⟨"error", some "refused"⟩)).2.1 ⟨"error", some "refused"⟩
     rfl (by decide),
   (connect_status_structured (some ⟨"error", none⟩)).2.1 ⟨"error", none⟩ rfl (by decide),
   (connect_status_structured none).2.2 rfl⟩

/-- C10: `handleSend` issues no request and leaves the message list
unchanged when the input is empty/whitespace-only (its trim is empty) or
no provider is selected; otherwise it issues the request and appends
exactly one user-role message carrying the (untrimmed) input before it and
exactly one AI-role message after it, on every fetch outcome. -/
theorem chat_send_messages (st : ChatState) (o : FetchOutcome) (t1 t2 : Nat) :
    (jsTrim st.input = "" ∨ st.providerId = "" →
      handleSend st o t1 t2 = (st.messages, false)) ∧
    (jsTrim st.input ≠ "" → st.providerId ≠ "" →
      (handleSend st o t1 t2).2 = true ∧
      (handleSend st o t1 t2).1 =
        st.messages ++ [⟨"user", st.input, t1⟩, handleSendAiMessage o t2] ∧
      (handleSendAiMessage o t2).role = "ai" ∧
      (handleSend st o t1 t2).1.length = st.messages.length + 2) := by
  constructor
  · intro h
    simp [handleSend, h]
  · intro h1 h2
    have hg : ¬(jsTrim st.input = "" ∨ st.providerId = "") := by
      rintro (h | h)
      exacts [h1 h, h2 h]
    exact ⟨by simp [handleSend, hg], by simp [handleSend, hg],
      handleSendAiMessage_role o t2, by simp [handleSend, hg]⟩

theorem chat_send_messages_witness :
    (handleSend ⟨[], "  ", "p1"⟩ .failed 1 2 = ([], false)) ∧
    (handleSend ⟨[], "hi", "p1"⟩ .failed 1 2).1 =
      [⟨"user", "hi", 1⟩, handleSendAiMessage .failed 2] ∧
    (handleSend ⟨[], "hi", "p1"⟩ .failed 1 2).1.length = 0 + 2 :=
  ⟨(chat_send_messages ⟨[], "  ", "p1"⟩ .failed 1 2).1 (Or.inl (by decide)),
   by
    have h := (chat_send_messages ⟨[], "hi", "p1"⟩ .failed 1 2).2 (by decide) (by decide)
    exact h.2.1,
   by
    have h := (chat_send_messages ⟨[], "hi", "p1"⟩ .failed 1 2).2 (by decide) (by decide)
    exact h.2.2.2⟩

/-- C7: a peer is a record with exactly the five fields `peer_id`, `addr`,
`latency_ms`, `health_status`, `last_audit` (the structure eta law below),
and `AdminView` renders each returned peer from those five fields:
`peer_id` (first 12 characters) and `addr` as identity, `health_status` as
the badge (green exactly on `"online"`), `last_audit` for the staleness
line, and `latency_ms` as the displayed latency (a dash when absent or
zero). -/
theorem peer_fields_rendered (p : Peer) (now : Nat) :
    p = ⟨p.peer_id, p.addr, p.latency_ms, p.health_status, p.last_audit⟩ ∧
    (renderPeer now p).idText = p.peer_id.take 12 ++ "..." ∧
    (renderPeer now p).addrText = p.addr ∧
    (renderPeer now p).badgeText = p.health_status ∧
    ((renderPeer now p).badgeGreen = true ↔ p.health_status = "online") ∧
    (renderPeer now p).lastSeenSecs = roundDiv1000 (now - p.last_audit) ∧
    (∀ v : Nat, p.latency_ms = some v → v ≠ 0 →
      (renderPeer now p).latencyText = toString v) ∧
    (p.latency_ms = none ∨ p.latency_ms = some 0 →
      (renderPeer now p).latencyText = "-") := by
  refine ⟨rfl, rfl, rfl, rfl, by simp [renderPeer], rfl, ?_, ?_⟩
  · intro v hv hv0
    simp [renderPeer, hv, hv0]
  · rintro (h | h) <;> simp [renderPeer, h]

theorem peer_fields_rendered_witness :
    (renderPeer 2000 ⟨"abcdefghijklmnop", "ws://x:1", some 42, "online", 1000⟩).latencyText =
      toString 42 ∧
    (renderPeer 2000 ⟨"abcdefghijklmnop", "ws://x:1", none, "online", 1000⟩).latencyText = "-" ∧
    (renderPeer 2000 ⟨"abcdefghijklmnop", "ws://x:1", some 0, "online", 1000⟩).latencyText = "-" :=
  ⟨(peer_fields_rendered ⟨"abcdefghijklmnop", "ws://x:1", some 42, "online", 1000⟩ 2000).2.2.2.2.2.2.1
      42 rfl (by decide),
   (peer_fields_rendered ⟨"abcdefghijklmnop", "ws://x:1", none, "online", 1000⟩ 2000).2.2.2.2.2.2.2
      (Or.inl rfl),
   (peer_fields_rendered ⟨"abcdefghijklmnop", "ws://x:1", some 0, "online", 1000⟩ 2000).2.2.2.2.2.2.2
      (Or.inr rfl)⟩

/-- C9: the Network Overview average-latency statistic is well-defined for
every peer list: its divisor is the peer count, or 1 for the empty list,
hence always positive (the division is guarded — never a division by
zero); the empty list yields 0 ms, and a peer whose `latency_ms` is absent
or 0 (falsy) contributes 0 to the sum. -/
theorem avg_latency_guarded (peers : List Peer) :
    0 < avgLatencyDivisor peers ∧
    (peers = [] → avgLatencyDivisor peers = 1) ∧
    (peers ≠ [] → avgLatencyDivisor peers = peers.length) ∧
    avgLatency [] = 0 ∧
    (∀ p : Peer, p.latency_ms = none ∨ p.latency_ms = some 0 →
      jsNumOr p.latency_ms 0 = 0) := by
  refine ⟨?_, ?_, ?_, ?_, ?_⟩
  · unfold avgLatencyDivisor
    split
    · exact Nat.one_pos
    · next h => exact Nat.pos_of_ne_zero h
  · rintro rfl
    rfl
  · intro h
    unfold avgLatencyDivisor
    split
    · next h0 => exact absurd (List.length_eq_zero.mp h0) h
    · rfl
  · show round ((sumLatency [] : ℚ) / (avgLatencyDivisor [] : ℚ)) = 0
    norm_num [sumLatency, avgLatencyDivisor]
  · rintro p (h | h) <;> simp [jsNumOr, h]

theorem avg_latency_guarded_witness :
    avgLatencyDivisor [] = 1 ∧
    avgLatencyDivisor [⟨"a", "x", some 7, "online", 0⟩] = 1 ∧
    avgLatency [] = 0 ∧
    jsNumOr (Peer.latency_ms ⟨"a", "x", none, "online", 0⟩) 0 = 0 :=
  ⟨(avg_latency_guarded []).2.1 rfl,
   (avg_latency_guarded [⟨"a", "x", some 7, "online", 0⟩]).2.2.1 (by decide),
   (avg_latency_guarded []).2.2.2.1,
   (avg_latency_guarded [⟨"a", "x", none, "online", 0⟩]).2.2.2.2
      ⟨"a", "x", none, "online", 0⟩ (Or.inl rfl)⟩

theorem runProbes_all_true (l : List Bool) (h : ∀ b ∈ l, b = true) :
    runProbes ⟨0, .online⟩ l = ⟨0, .online⟩ := by
  induction l with
  | nil => rfl
  | cons b rest ih =>
    have hb : b = true := h b (List.mem_cons_self b rest)
    have hr : ∀ x ∈ rest, x = true := fun x hx => h x (List.mem_cons_of_mem b hx)
    show runProbes (probeStep ⟨0, .online⟩ b) rest = ⟨0, .online⟩
    rw [hb]
    show runProbes ⟨0, .online⟩ rest = ⟨0, .online⟩
    exact ih hr

/-- C2: the Supervisor Monitor's per-peer health state machine: a peer
answering every probe stays `online` with a zero failure counter; each
probe failure increments the consecutive-failure counter; a single failure
(counter 0 before it) sets `degraded`; reaching 3 consecutive failures
sets `offline` (concretely, three straight failures from `online` pass
through `degraded` and end `offline`); and one subsequent success resets
the counter and restores `online` immediately from any state — there is no
intermediate recovery state. -/
theorem monitor_health_machine :
    (∀ l : List Bool, (∀ b ∈ l, b = true) → runProbes ⟨0, .online⟩ l = ⟨0, .online⟩) ∧
    (∀ s : MonitorState, (probeStep s false).failures = s.failures + 1) ∧
    (∀ s : MonitorState, s.failures = 0 → probeStep s false = ⟨1, .degraded⟩) ∧
    (∀ s : MonitorState, 2 ≤ s.failures → (probeStep s false).health = .offline) ∧
    runProbes ⟨0, .online⟩ [false] = ⟨1, .degraded⟩ ∧
    runProbes ⟨0, .online⟩ [false, false] = ⟨2, .degraded⟩ ∧
    runProbes ⟨0, .online⟩ [false, false, false] = ⟨3, .offline⟩ ∧
    (∀ s : MonitorState, probeStep s true = ⟨0, .online⟩) := by
  refine ⟨runProbes_all_true, ?_, ?_, ?_, by decide, by decide, by decide, fun s => rfl⟩
  · intro s
    simp [probeStep]
  · intro s h
    simp [probeStep, h]
  · intro s h
    have h3 : 3 ≤ s.failures + 1 := by omega
    simp [probeStep, h3]

theorem monitor_health_machine_witness :
    runProbes ⟨0, .online⟩ [true, true, true] = ⟨0, .online⟩ ∧
    probeStep ⟨0, .online⟩ false = ⟨1, .degraded⟩ ∧
    (probeStep ⟨2, .degraded⟩ false).health = .offline ∧
    probeStep ⟨3, .offline⟩ true = ⟨0, .online⟩ :=
  ⟨monitor_health_machine.1 [true, true, true] (by decide),
   monitor_health_machine.2.2.1 ⟨0, .online⟩ rfl,
   monitor_health_machine.2.2.2.1 ⟨2, .degraded⟩ (by decide),
   monitor_health_machine.2.2.2.2.2.2.2 ⟨3, .offline⟩⟩

/-- C8: `evict_stale(now, threshold)` removes every record whose
`last_seen_gossip` is older than the threshold — in particular a record
that is still `online` — and such a record no longer appears in the
`list()` output (the evicted registry); a record survives exactly when it
is in the registry and not older than the threshold. -/
theorem evict_stale_removes (rs : List PeerRec) (now threshold : Nat) :
    (∀ r : PeerRec, r ∈ evictStale rs now threshold ↔
      r ∈ rs ∧ now - r.last_seen_gossip ≤ threshold) ∧
    (∀ r : PeerRec, r ∈ rs → r.health = .online →
      threshold < now - r.last_seen_gossip → r ∉ evictStale rs now threshold) := by
  constructor
  · intro r
    simp [evictStale, List.mem_filter]
  · intro r _ _ hold hmem
    have h := (List.mem_filter.mp hmem).2
    simp at h
    omega

theorem evict_stale_removes_witness :
    (⟨"a", "x", [], .online, 0, 0, 100⟩ : PeerRec) ∉
      evictStale [⟨"a", "x", [], .online, 0, 0, 100⟩] 5000 1000 :=
  (evict_stale_removes [⟨"a", "x", [], .online, 0, 0, 100⟩] 5000 1000).2
    ⟨"a", "x", [], .online, 0, 0, 100⟩ (List.mem_singleton.mpr rfl) rfl (by decide)

theorem upsert_ts (r d : PeerRec) : (upsert r d).ts = max r.ts d.ts := rfl

theorem foldl_upsert_stable (l : List PeerRec) (r : PeerRec)
    (h : ∀ d ∈ l, d.ts ≤ r.ts) :
    (l.foldl upsert r).address = r.address ∧
    (l.foldl upsert r).capabilities = r.capabilities ∧
    (l.foldl upsert r).ts = r.ts := by
  induction l generalizing r with
  | nil => exact ⟨rfl, rfl, rfl⟩
  | cons d rest ih =>
    have hd : d.ts ≤ r.ts := h d (List.mem_cons_self d rest)
    have hlt : ¬r.ts < d.ts := Nat.not_lt.mpr hd
    have h1 : (upsert r d).address = r.address := by simp [upsert, hlt]
    have h2 : (upsert r d).capabilities = r.capabilities := by simp [upsert, hlt]
    have h3 : (upsert r d).ts = r.ts := by
      rw [upsert_ts]; exact Nat.max_eq_left hd
    have hrest : ∀ x ∈ rest, x.ts ≤ (upsert r d).ts := by
      intro x hx
      rw [h3]
      exact h x (List.mem_cons_of_mem d hx)
    obtain ⟨a, b, c⟩ := ih (upsert r d) hrest
    exact ⟨a.trans h1, b.trans h2, c.trans h3⟩

theorem foldl_upsert_latest (l : List PeerRec) (d : PeerRec) :
    ∀ init : PeerRec, d ∈ l → (∀ d' ∈ l, d' ≠ d → d'.ts < d.ts) →
    init.ts < d.ts →
    (l.foldl upsert init).address = d.address ∧
    (l.foldl upsert init).capabilities = d.capabilities := by
  induction l with
  | nil =>
    intro init hmem _ _
    exact absurd hmem (List.not_mem_nil d)
  | cons a rest ih =>
    intro init hmem hmax hinit
    simp only [List.foldl_cons]
    by_cases ha : a = d
    · subst ha
      have h1 : (upsert init a).address = a.address := by simp [upsert, hinit]
      have h2 : (upsert init a).capabilities = a.capabilities := by simp [upsert, hinit]
      have h3 : (upsert init a).ts = a.ts := by
        rw [upsert_ts]; exact Nat.max_eq_right (Nat.le_of_lt hinit)
      have hrest : ∀ x ∈ rest, x.ts ≤ (upsert init a).ts := by
        intro x hx
        rw [h3]
        by_cases hxa : x = a
        · subst hxa; exact Nat.le_refl _
        · exact Nat.le_of_lt (hmax x (List.mem_cons_of_mem a hx) hxa)
      obtain ⟨p, q, _⟩ := foldl_upsert_stable rest (upsert init a) hrest
      exact ⟨p.trans h1, q.trans h2⟩
    · have hats : a.ts < d.ts := hmax a (List.mem_cons_self a rest) ha
      have hd' : d ∈ rest := by
        rcases List.mem_cons.mp hmem with h | h
        · exact absurd h.symm ha
        · exact h
      have hinit' : (upsert init a).ts < d.ts := by
        rw [upsert_ts]; exact max_lt hinit hats
      exact ih (upsert init a) hd'
        (fun x hx hne => hmax x (List.mem_cons_of_mem a hx) hne) hinit'

/-- C3: for every sequence of `upsert` deltas for the same peer, the final
record's `address` and `capabilities` are those of the delta with the
latest timestamp — the conclusion depends only on that delta, not on the
arrival order, and any two arrival orders (permutations) of the same
deltas agree; and `last_audit` / `last_seen_gossip` never move backward in
time under any single `upsert`. -/
theorem registry_upsert_lww :
    (∀ r d : PeerRec, r.last_audit ≤ (upsert r d).last_audit ∧
      r.last_seen_gossip ≤ (upsert r d).last_seen_gossip) ∧
    (∀ (l : List PeerRec) (init d : PeerRec), d ∈ l →
      (∀ d' ∈ l, d' ≠ d → d'.ts < d.ts) → init.ts < d.ts →
      (l.foldl upsert init).address = d.address ∧
      (l.foldl upsert init).capabilities = d.capabilities) ∧
    (∀ (l₁ l₂ : List PeerRec) (init d : PeerRec), l₁.Perm l₂ → d ∈ l₁ →
      (∀ d' ∈ l₁, d' ≠ d → d'.ts < d.ts) → init.ts < d.ts →
      (l₁.foldl upsert init).address = (l₂.foldl upsert init).address ∧
      (l₁.foldl upsert init).capabilities = (l₂.foldl upsert init).capabilities) := by
  refine ⟨?_, ?_, ?_⟩
  · intro r d
    exact ⟨Nat.le_max_left _ _, Nat.le_max_left _ _⟩
  · intro l init d hmem hmax hinit
    exact foldl_upsert_latest l d init hmem hmax hinit
  · intro l₁ l₂ init d hperm hmem hmax hinit
    obtain ⟨a1, c1⟩ := foldl_upsert_latest l₁ d init hmem hmax hinit
    obtain ⟨a2, c2⟩ := foldl_upsert_latest l₂ d init (hperm.mem_iff.mp hmem)
      (fun x hx hne => hmax x (hperm.mem_iff.mpr hx) hne) hinit
    exact ⟨a1.trans a2.symm, c1.trans c2.symm⟩

theorem registry_upsert_lww_witness :
    (⟨"p", "a0", [], .online, 0, 0, 0⟩ : PeerRec).last_audit ≤
      (upsert ⟨"p", "a0", [], .online, 0, 0, 0⟩ ⟨"p", "a1", ["m1"], .online, 1, 10, 10⟩).last_audit ∧
    (([⟨"p", "a1", ["m1"], .online, 1, 10, 10⟩, ⟨"p", "a2", ["m2"], .online, 2, 20, 20⟩] :
        List PeerRec).foldl upsert ⟨"p", "a0", [], .online, 0, 0, 0⟩).address = "a2" ∧
    (([⟨"p", "a2", ["m2"], .online, 2, 20, 20⟩, ⟨"p", "a1", ["m1"], .online, 1, 10, 10⟩] :
        List PeerRec).foldl upsert ⟨"p", "a0", [], .online, 0, 0, 0⟩).address =
      (([⟨"p", "a1", ["m1"], .online, 1, 10, 10⟩, ⟨"p", "a2", ["m2"], .online, 2, 20, 20⟩] :
        List PeerRec).foldl upsert ⟨"p", "a0", [], .online, 0, 0, 0⟩).address :=
  ⟨(registry_upsert_lww.1 ⟨"p", "a0", [], .online, 0, 0, 0⟩
      ⟨"p", "a1", ["m1"], .online, 1, 10, 10⟩).1,
   (registry_upsert_lww.2.1
      [⟨"p", "a1", ["m1"], .online, 1, 10, 10⟩, ⟨"p", "a2", ["m2"], .online, 2, 20, 20⟩]
      ⟨"p", "a0", [], .online, 0, 0, 0⟩ ⟨"p", "a2", ["m2"], .online, 2, 20, 20⟩
      (by decide) (by decide) (by decide)).1,
   (registry_upsert_lww.2.2
      [⟨"p", "a2", ["m2"], .online, 2, 20, 20⟩, ⟨"p", "a1", ["m1"], .online, 1, 10, 10⟩]
      [⟨"p", "a1", ["m1"], .online, 1, 10, 10⟩, ⟨"p", "a2", ["m2"], .online, 2, 20, 20⟩]
      ⟨"p", "a0", [], .online, 0, 0, 0⟩ ⟨"p", "a2", ["m2"], .online, 2, 20, 20⟩
      (List.Perm.swap _ _ _) (by decide) (by decide) (by decide)).1⟩

theorem mem_sortByScore (w p : ℚ) (c : Candidate) (cs : List Candidate) :
    c ∈ sortByScore w p cs ↔ c ∈ cs :=
  List.mem_insertionSort _

theorem selectBest_mem (w p : ℚ) (cs : List Candidate) (c : Candidate)
    (h : selectBest w p cs = some c) : c ∈ cs := by
  unfold selectBest at h
  cases hs : sortByScore w p cs with
  | nil => rw [hs] at h; exact absurd h (by simp)
  | cons b t =>
    rw [hs] at h
    have hb : c = b := by simpa using h.symm
    subst hb
    exact (mem_sortByScore w p c cs).mp (hs ▸ List.mem_cons_self c t)

theorem score_online (w p : ℚ) (c : Candidate) (h : c.health = .online) :
    score w p c = c.price * w + c.latency_ms := by
  simp [score, h]

/-- C4: the Router considers exactly the Registry entries whose
capabilities include the requested model and whose health is not
`offline`; a `degraded` entry is kept (not excluded) and its score is the
base score `price * latency_weight + latency_ms` times the fixed penalty
multiplier; the dispatched candidate is always drawn from the considered
set — so an `offline` entry is never selected; and for two online
candidates with equal latency, the cheaper one is selected whichever order
they are listed in, for any positive latency weight. -/
theorem router_selection :
    (∀ (reg : List Candidate) (m : String) (c : Candidate),
      c ∈ routerCandidates reg m ↔ c ∈ reg ∧ m ∈ c.models ∧ c.health ≠ .offline) ∧
    (∀ (w p : ℚ) (c : Candidate), c.health = .degraded →
      score w p c = (c.price * w + c.latency_ms) * p) ∧
    (∀ (w p : ℚ) (cs : List Candidate) (c : Candidate),
      selectBest w p cs = some c → c ∈ cs) ∧
    (∀ (w p : ℚ) (reg : List Candidate) (m : String) (c : Candidate),
      selectBest w p (routerCandidates reg m) = some c → c.health ≠ .offline) ∧
    (∀ (w p : ℚ) (c₁ c₂ : Candidate), c₁.health = .online → c₂.health = .online →
      c₁.latency_ms = c₂.latency_ms → c₁.price < c₂.price → 0 < w →
      selectBest w p [c₁, c₂] = some c₁ ∧ selectBest w p [c₂, c₁] = some c₁) := by
  refine ⟨?_, ?_, selectBest_mem, ?_, ?_⟩
  · intro reg m c
    simp [routerCandidates, List.mem_filter]
  · intro w p c h
    simp [score, h]
  · intro w p reg m c h
    have hc := selectBest_mem w p (routerCandidates reg m) c h
    have := (List.mem_filter.mp hc).2
    simp at this
    exact this.2
  · intro w p c₁ c₂ h1 h2 hlat hprice hw
    have hlt : score w p c₁ < score w p c₂ := by
      rw [score_online w p c₁ h1, score_online w p c₂ h2, hlat]
      exact add_lt_add_right (mul_lt_mul_of_pos_right hprice hw) _
    have hle : score w p c₁ ≤ score w p c₂ := le_of_lt hlt
    have hnle : ¬score w p c₂ ≤ score w p c₁ := not_le.mpr hlt
    constructor
    · simp [selectBest, sortByScore, List.insertionSort, List.orderedInsert, hle]
    · simp [selectBest, sortByScore, List.insertionSort, List.orderedInsert, hnle]

theorem router_selection_witness :
    selectBest 1 2 [⟨"p1", 1, 10, .online, ["m"]⟩, ⟨"p2", 2, 10, .online, ["m"]⟩] =
      some ⟨"p1", 1, 10, .online, ["m"]⟩ ∧
    selectBest 1 2 [⟨"p2", 2, 10, .online, ["m"]⟩, ⟨"p1", 1, 10, .online, ["m"]⟩] =
      some ⟨"p1", 1, 10, .online, ["m"]⟩ ∧
    Candidate.health ⟨"p1", 1, 10, .online, ["m"]⟩ ≠ .offline ∧
    score 1 2 ⟨"pd", 1, 10, .degraded, ["m"]⟩ = (1 * 1 + 10) * 2 :=
  ⟨((router_selection.2.2.2.2 1 2 ⟨"p1", 1, 10, .online, ["m"]⟩ ⟨"p2", 2, 10, .online, ["m"]⟩
      rfl rfl rfl (by norm_num) (by norm_num))).1,
   ((router_selection.2.2.2.2 1 2 ⟨"p1", 1, 10, .online, ["m"]⟩ ⟨"p2", 2, 10, .online, ["m"]⟩
      rfl rfl rfl (by norm_num) (by norm_num))).2,
   router_selection.2.2.2.1 1 2 [⟨"p1", 1, 10, .online, ["m"]⟩] "m"
      ⟨"p1", 1, 10, .online, ["m"]⟩ (by norm_num [selectBest, sortByScore, routerCandidates]),
   router_selection.2.1 1 2 ⟨"pd", 1, 10, .degraded, ["m"]⟩ rfl⟩

theorem attemptLoop_zero (f : Candidate → Option String) (l : List Candidate) :
    attemptLoop f l 0 = (.terminalFailure, 0) := by
  cases l <;> rfl

theorem attemptLoop_attempts_le (f : Candidate → Option String) :
    ∀ (k : Nat) (l : List Candidate), (attemptLoop f l k).2 ≤ k := by
  intro k
  induction k with
  | zero =>
    intro l
    rw [attemptLoop_zero]
  | succ n ih =>
    intro l
    cases l with
    | nil => exact Nat.zero_le _
    | cons c rest =>
      show (attemptLoop f (c :: rest) (n + 1)).2 ≤ n + 1
      rw [attemptLoop]
      cases f c with
      | some t => exact Nat.le_add_left 1 n
      | none => exact Nat.succ_le_succ (ih rest)

theorem attemptLoop_all_fail (f : Candidate → Option String) :
    ∀ (k : Nat) (l : List Candidate), (∀ c ∈ l, f c = none) → k ≤ l.length →
    attemptLoop f l k = (.terminalFailure, k) := by
  intro k
  induction k with
  | zero =>
    intro l _ _
    exact attemptLoop_zero f l
  | succ n ih =>
    intro l hf hk
    cases l with
    | nil => exact absurd hk (by simp)
    | cons c rest =>
      rw [attemptLoop, hf c (List.mem_cons_self c rest),
        ih rest (fun x hx => hf x (List.mem_cons_of_mem c hx)) (Nat.le_of_succ_le_succ hk)]

/-- C5: when the filtered candidate set is empty, the Router returns the
distinct `NoCandidateAvailable` error immediately, with zero delivery
attempts (no retry); otherwise it tries candidates in score order: a
failed attempt (`ConnectionClosed`, timeout or provider execution error)
makes it retry the next-best candidate with one attempt consumed, the
number of attempts never exceeds the cap, the cap is 3, and when every
candidate fails and at least 3 are available the Router returns the
terminal failure after exactly 3 attempts. -/
theorem router_retry_cap :
    (∀ (w p : ℚ) (f : Candidate → Option String) (reg : List Candidate) (m : String),
      routerCandidates reg m = [] → route w p f reg m = (.noCandidate, 0)) ∧
    (∀ (w p : ℚ) (f : Candidate → Option String) (reg : List Candidate) (m : String),
      routerCandidates reg m ≠ [] →
      route w p f reg m =
        attemptLoop f (sortByScore w p (routerCandidates reg m)) attemptCap) ∧
    (∀ (f : Candidate → Option String) (c : Candidate) (rest : List Candidate)
      (k : Nat) (t : String), f c = some t →
      attemptLoop f (c :: rest) (k + 1) = (.ok t c.peer_id, 1)) ∧
    (∀ (f : Candidate → Option String) (c : Candidate) (rest : List Candidate)
      (k : Nat), f c = none →
      attemptLoop f (c :: rest) (k + 1) =
        ((attemptLoop f rest k).1, (attemptLoop f rest k).2 + 1)) ∧
    (∀ (f : Candidate → Option String) (k : Nat) (l : List Candidate),
      (attemptLoop f l k).2 ≤ k) ∧
    attemptCap = 3 ∧
    (∀ (w p : ℚ) (f : Candidate → Option String) (reg : List Candidate) (m : String),
      (∀ c ∈ reg, f c = none) → routerCandidates reg m ≠ [] →
      3 ≤ (routerCandidates reg m).length →
      route w p f reg m = (.terminalFailure, 3)) := by
  refine ⟨?_, ?_, ?_, ?_, attemptLoop_attempts_le, rfl, ?_⟩
  · intro w p f reg m h
    simp [route, h]
  · intro w p f reg m h
    rw [route]
    simp only [List.isEmpty_iff, h, if_false]
  · intro f c rest k t h
    rw [attemptLoop, h]
  · intro f c rest k h
    rw [attemptLoop, h]
  · intro w p f reg m hf hne h3
    have hroute : route w p f reg m =
        attemptLoop f (sortByScore w p (routerCandidates reg m)) attemptCap := by
      rw [route]
      simp only [List.isEmpty_iff, hne, if_false]
    rw [hroute]
    have hmemf : ∀ c ∈ sortByScore w p (routerCandidates reg m), f c = none := by
      intro c hc
      have hc2 : c ∈ routerCandidates reg m := (mem_sortByScore w p c _).mp hc
      exact hf c (List.mem_filter.mp hc2).1
    have hlen : 3 ≤ (sortByScore w p (routerCandidates reg m)).length := by
      rw [sortByScore, List.length_insertionSort]
      exact h3
    exact attemptLoop_all_fail f 3 _ hmemf hlen

theorem router_retry_cap_witness :
    route 1 2 (fun _ => none) ([] : List Candidate) "m" = (.noCandidate, 0) ∧
    route 1 2 (fun _ => none)
      [⟨"p1", 1, 10, .online, ["m"]⟩, ⟨"p2", 2, 10, .online, ["m"]⟩,
       ⟨"p3", 3, 10, .online, ["m"]⟩, ⟨"p4", 4, 10, .online, ["m"]⟩] "m" =
      (.terminalFailure, 3) ∧
    attemptLoop (fun _ => none) [⟨"p1", 1, 10, .online, ["m"]⟩] 1 =
      ((attemptLoop (fun _ => none) ([] : List Candidate) 0).1,
       (attemptLoop (fun _ => none) ([] : List Candidate) 0).2 + 1) ∧
    attemptLoop (fun _ => some "hi") [⟨"p1", 1, 10, .online, ["m"]⟩] 3 =
      (.ok "hi" "p1", 1) :=
  ⟨router_retry_cap.1 1 2 (fun _ => none) [] "m" rfl,
   router_retry_cap.2.2.2.2.2.2 1 2 (fun _ => none)
      [⟨"p1", 1, 10, .online, ["m"]⟩, ⟨"p2", 2, 10, .online, ["m"]⟩,
       ⟨"p3", 3, 10, .online, ["m"]⟩, ⟨"p4", 4, 10, .online, ["m"]⟩] "m"
      (fun _ _ => rfl) (by decide) (by decide),
   router_retry_cap.2.2.2.1 (fun _ => none) ⟨"p1", 1, 10, .online, ["m"]⟩ [] 0 rfl,
   router_retry_cap.2.2.1 (fun _ => some "hi") ⟨"p1", 1, 10, .online, ["m"]⟩ [] 2 "hi" rfl⟩
